import Mathlib

/-!
Shallow embedding of the shift-tracking core of the discord-idle-bot
repository (src/database.py and src/bot.py).

Timestamps are modelled as natural numbers: seconds elapsed since an
arbitrary epoch, all instants in the single fixed time zone (PKT) that the
source uses.  Python computes a duration as
int((t2 - t1).total_seconds() / 60); for the monotone clock instants the
program produces (t1 stored earlier than the current time t2) this equals
(t2 - t1) / 60 on naturals, which is how durations are written below.

The SQLite tables of database.py are modelled as lists of rows inside a
DB structure; active_shifts, whose user_id column is the PRIMARY KEY, is
an association list from user id to the remaining columns.
-/

namespace IdleBot

/-- Tracked presence categories stored in active_shifts.current_status and
status_logs.status (bot.py maps online and dnd to online, idle to idle,
offline to offline). -/
inductive Status where
  | online
  | idle
  | offline
deriving DecidableEq, Repr

/-- A row of the active_shifts table; user_id, the primary key, is kept as
the key of the association list in DB.  check_in always populates
status_start_time, and nothing ever nulls it, so it is not optional. -/
structure ActiveShift where
  username : String
  check_in_time : Nat
  current_status : Status
  status_start_time : Nat
  on_break : Bool
  break_start_time : Option Nat
deriving DecidableEq, Repr

/-- A row of the status_logs table (a persisted StatusInterval). -/
structure StatusLog where
  user_id : Nat
  status : Status
  start_time : Nat
  end_time : Nat
  duration_minutes : Nat
deriving DecidableEq, Repr

/-- A row of the break_logs table (a persisted BreakInterval). -/
structure BreakLog where
  user_id : Nat
  username : String
  break_start : Nat
  break_end : Nat
  duration_minutes : Nat
deriving DecidableEq, Repr

/-- A row of the shift_history table.  active_minutes is an Int because
Python computes total - idle - offline - break in signed arithmetic before
flooring it at zero. -/
structure ShiftHistory where
  user_id : Nat
  username : String
  check_in_time : Nat
  check_out_time : Nat
  total_minutes : Nat
  idle_minutes : Nat
  offline_minutes : Nat
  break_minutes : Nat
  active_minutes : Int
deriving DecidableEq, Repr

/-- The persistent state of database.py (the tables the claims touch). -/
structure DB where
  active_shifts : List (Nat × ActiveShift)
  shift_history : List ShiftHistory
  status_logs : List StatusLog
  break_logs : List BreakLog
deriving DecidableEq, Repr

/-- Association-list read of the row keyed by uid. -/
def findRow (uid : Nat) : List (Nat × ActiveShift) → Option ActiveShift
  | [] => none
  | (k, v) :: t => if k = uid then some v else findRow uid t

/-- SELECT ... FROM active_shifts WHERE user_id = uid (primary-key read). -/
def DB.activeShift (db : DB) (uid : Nat) : Option ActiveShift :=
  findRow uid db.active_shifts

/-- UPDATE active_shifts SET ... WHERE user_id = uid: rewrite the columns
of the row keyed by uid, leave every other row unchanged. -/
def updateWhere (uid : Nat) (f : ActiveShift → ActiveShift) :
    List (Nat × ActiveShift) → List (Nat × ActiveShift)
  | [] => []
  | (k, v) :: t => (k, if k = uid then f v else v) :: updateWhere uid f t

/-- The row check_in inserts: status online, status_start = now,
on_break = 0, break_start_time NULL. -/
def freshShift (username : String) (now : Nat) : ActiveShift :=
  { username := username, check_in_time := now,
    current_status := Status.online, status_start_time := now,
    on_break := false, break_start_time := none }

/-- database.py check_in: refuse if a row already exists for the user,
otherwise insert a fresh row with status online, status_start = now,
on_break = 0 and a NULL break_start_time. -/
def check_in (db : DB) (uid : Nat) (username : String) (now : Nat) :
    Bool × DB :=
  match db.activeShift uid with
  | some _ => (false, db)
  | none =>
      let shifts := db.active_shifts ++ [(uid, freshShift username now)]
      (true, { db with active_shifts := shifts })

/-- SELECT SUM(duration_minutes) FROM status_logs WHERE user_id = uid AND
start_time >= checkIn, restricted to one status label (check_out groups by
status and buckets idle and offline separately). -/
def sumStatusMinutes (logs : List StatusLog) (uid : Nat) (checkIn : Nat)
    (s : Status) : Nat :=
  ((logs.filter (fun l =>
      decide (l.user_id = uid ∧ checkIn ≤ l.start_time ∧ l.status = s))).map
    (fun l => l.duration_minutes)).sum

/-- SELECT SUM(duration_minutes) FROM break_logs WHERE user_id = uid AND
break_start >= checkIn. -/
def sumBreakMinutes (logs : List BreakLog) (uid : Nat) (checkIn : Nat) : Nat :=
  ((logs.filter (fun l =>
      decide (l.user_id = uid ∧ checkIn ≤ l.break_start))).map
    (fun l => l.duration_minutes)).sum

/-- The in-progress break component of check_out: Python adds
min(int((now - break_start).total_seconds() / 60), 40) exactly when
on_break and break_start are both set. -/
def ongoingBreakMinutes (sh : ActiveShift) (now : Nat) : Nat :=
  match sh.on_break, sh.break_start_time with
  | true, some bs => min ((now - bs) / 60) 40
  | _, _ => 0

/-- The dictionary check_out returns to bot.py. -/
structure CheckoutSummary where
  username : String
  check_in : Nat
  check_out : Nat
  total_minutes : Nat
  active_minutes : Int
  idle_minutes : Nat
  offline_minutes : Nat
  break_minutes : Nat
deriving DecidableEq, Repr

/-- database.py check_out.  Note that the source reads current_status and
status_start_time out of the active_shifts row but never uses them in the
computation; the embedding reads the whole row the same way. -/
def check_out (db : DB) (uid : Nat) (now : Nat) :
    Option CheckoutSummary × DB :=
  match db.activeShift uid with
  | none => (none, db)
  | some sh =>
      let total_minutes := (now - sh.check_in_time) / 60
      let idle_minutes :=
        sumStatusMinutes db.status_logs uid sh.check_in_time Status.idle
      let offline_minutes :=
        sumStatusMinutes db.status_logs uid sh.check_in_time Status.offline
      let break_minutes := ongoingBreakMinutes sh now +
        sumBreakMinutes db.break_logs uid sh.check_in_time
      let active_minutes : Int :=
        max 0 ((total_minutes : Int) - idle_minutes - offline_minutes -
          break_minutes)
      let summary : CheckoutSummary :=
        { username := sh.username, check_in := sh.check_in_time,
          check_out := now, total_minutes := total_minutes,
          active_minutes := active_minutes, idle_minutes := idle_minutes,
          offline_minutes := offline_minutes, break_minutes := break_minutes }
      let histRow : ShiftHistory :=
        { user_id := uid, username := sh.username,
          check_in_time := sh.check_in_time, check_out_time := now,
          total_minutes := total_minutes, idle_minutes := idle_minutes,
          offline_minutes := offline_minutes, break_minutes := break_minutes,
          active_minutes := active_minutes }
      let remaining := db.active_shifts.filter (fun p => decide (p.1 ≠ uid))
      (some summary,
       { db with shift_history := db.shift_history ++ [histRow],
                 active_shifts := remaining })

/-- database.py start_break: refuse when not checked in or already on
break; otherwise set on_break and break_start_time = now and return the
scheduled break end, now + 40 minutes. -/
def start_break (db : DB) (uid : Nat) (now : Nat) : Option Nat × DB :=
  match db.activeShift uid with
  | none => (none, db)
  | some sh =>
      if sh.on_break then (none, db)
      else
        let shifts := updateWhere uid
          (fun s => { s with on_break := true, break_start_time := some now })
          db.active_shifts
        (some (now + 40 * 60), { db with active_shifts := shifts })

/-- The break_logs row end_break inserts. -/
def breakRow (uid : Nat) (username : String) (bs now d : Nat) : BreakLog :=
  { user_id := uid, username := username, break_start := bs,
    break_end := now, duration_minutes := d }

/-- UPDATE active_shifts SET on_break = 0, break_start_time = NULL. -/
def clearBreak (s : ActiveShift) : ActiveShift :=
  { s with on_break := false, break_start_time := none }

/-- database.py end_break.  The SELECT filters on user_id = uid AND
on_break = 1, so a user who is not checked in or not on break yields None
with no writes.  On the on-break row it logs one break_logs row with
duration min((now - break_start) / 60, 40) and clears on_break and
break_start_time.  (An on_break row with a NULL break_start_time would
make fromisoformat raise in the source; that shape is unreachable because
start_break always sets both columns together, and the embedding returns
None there.) -/
def end_break (db : DB) (uid : Nat) (username : String) (now : Nat) :
    Option Nat × DB :=
  match db.activeShift uid with
  | none => (none, db)
  | some sh =>
      match sh.on_break, sh.break_start_time with
      | true, some bs =>
          let duration := min ((now - bs) / 60) 40
          let shifts := updateWhere uid clearBreak db.active_shifts
          (some duration,
           { db with
              break_logs := db.break_logs ++ [breakRow uid username bs now duration],
              active_shifts := shifts })
      | _, _ => (none, db)

/-- database.py update_status.  insertRaises models an exception thrown
inside the try block around the status_logs INSERT (or the timestamp
parse); the except clause catches it, so the row is not added but the
UPDATE of active_shifts still runs and is committed.  The source also
guards on status_start being truthy, which always holds because check_in
populates it. -/
def update_status (db : DB) (uid : Nat) (newStatus : Status) (now : Nat)
    (insertRaises : Bool) : DB :=
  match db.activeShift uid with
  | none => db
  | some sh =>
      if sh.on_break then db
      else if sh.current_status = newStatus then db
      else
        let duration_minutes := (now - sh.status_start_time) / 60
        let logRow : StatusLog :=
          { user_id := uid, status := sh.current_status,
            start_time := sh.status_start_time, end_time := now,
            duration_minutes := duration_minutes }
        let logs :=
          if insertRaises = false ∧ 1 < duration_minutes ∧
              (sh.current_status = Status.idle ∨
               sh.current_status = Status.offline) then
            db.status_logs ++ [logRow]
          else db.status_logs
        let shifts := updateWhere uid
          (fun s => { s with current_status := newStatus,
                             status_start_time := now })
          db.active_shifts
        { db with status_logs := logs, active_shifts := shifts }

/-- The dictionary database.py get_active_shift returns (duration is the
timedelta now - check_in, in seconds here). -/
structure ShiftView where
  username : String
  check_in : Nat
  duration : Nat
  status : Status
  on_break : Bool
  break_start : Option Nat
deriving DecidableEq, Repr

/-- database.py get_active_shift. -/
def get_active_shift (db : DB) (uid : Nat) (now : Nat) : Option ShiftView :=
  (db.activeShift uid).map (fun sh =>
    { username := sh.username, check_in := sh.check_in_time,
      duration := now - sh.check_in_time, status := sh.current_status,
      on_break := sh.on_break, break_start := sh.break_start_time })

/-- bot.py IDLE_WARNING_TIME, the fixed idle-warning delay in seconds. -/
def IDLE_WARNING_TIME : Nat := 300

/-- The idle_timers dictionary of bot.py: for each user id, the deadline
of the pending idle-warning task, none when no task is pending. -/
def IdleTimers : Type := Nat → Option Nat

/-- bot.py start_idle_warning: cancel any existing timer for the user and
store a fresh task that will fire IDLE_WARNING_TIME seconds from now. -/
def start_idle_warning (timers : IdleTimers) (uid : Nat) (now : Nat) :
    IdleTimers :=
  fun v => if v = uid then some (now + IDLE_WARNING_TIME) else timers v

/-- bot.py cancel_idle_warning: cancel and drop the user's pending task. -/
def cancel_idle_warning (timers : IdleTimers) (uid : Nat) : IdleTimers :=
  fun v => if v = uid then none else timers v

/-- The re-validation bot.py performs when the idle-warning task wakes up:
warn only if the user still has an active shift whose status is idle and
who is not on break (shift and shift status idle and not on_break). -/
def idle_warning_guard (shift : Option ShiftView) : Bool :=
  match shift with
  | some s => decide (s.status = Status.idle) && !s.on_break
  | none => false

/-- The armed idle-warning task for uid firing at time now: it re-reads
the persisted shift state through get_active_shift, emits the warning DM
iff the guard holds, removes itself from the timer dictionary and does not
reschedule.  Returns the new timer map and whether the warning side effect
was emitted.  A task that is no longer pending (cancelled) does not run. -/
def fire_idle_warning (timers : IdleTimers) (uid : Nat) (db : DB)
    (now : Nat) : IdleTimers × Bool :=
  match timers uid with
  | none => (timers, false)
  | some _ =>
      (cancel_idle_warning timers uid,
       idle_warning_guard (get_active_shift db uid now))

/-- One aggregated row of get_weekly_report_data (per user sums over
shift_history in the date range). -/
structure EmployeeAgg where
  user_id : Nat
  username : String
  shifts : Nat
  total_min : Nat
  active_min : Nat
  idle_min : Nat
  offline_min : Nat
  break_min : Nat
deriving DecidableEq, Repr

/-- database.py get_weekly_report_data productivity_score:
active_min / total_min * 100 when total_min > 0, else 0.  Python uses
floats; the rationals give the same exact values on the integer inputs. -/
def productivity_score (e : EmployeeAgg) : ℚ :=
  if 0 < e.total_min then (e.active_min : ℚ) / (e.total_min : ℚ) * 100 else 0

/-- The order in which get_weekly_report_data hands rows to the
leaderboard: its SQL ends with ORDER BY active_min DESC. -/
def sqlOrderActiveDesc (l : List EmployeeAgg) : Prop :=
  l.Pairwise (fun a b => b.active_min ≤ a.active_min)

/-- One insertion step of the stable descending sort performed by
Python sorted(..., key=productivity_score, reverse=True): an element is
placed before the first element whose key is at most its own, so elements
with equal keys keep their original relative order. -/
def insertDesc (x : EmployeeAgg) : List EmployeeAgg → List EmployeeAgg
  | [] => [x]
  | y :: ys =>
      if productivity_score y ≤ productivity_score x then x :: y :: ys
      else y :: insertDesc x ys

/-- Stable descending sort by productivity score (Python sorted with
reverse=True is stable: equal keys keep their input order). -/
def pySortDesc (l : List EmployeeAgg) : List EmployeeAgg :=
  l.foldr insertDesc []

/-- bot.py leaderboard: sorted(data employees, key productivity_score,
reverse=True) applied to the report rows. -/
def leaderboard_sort (employees : List EmployeeAgg) : List EmployeeAgg :=
  pySortDesc employees

/-- One display line of bot.py whoisin for one active_shifts row: elapsed
shift duration now - check_in (computed zone-consistently inside
get_all_active_shifts) and the status fields the line renders.  No line
ever carries a remaining break time: see snapshotEntry. -/
structure SnapshotEntry where
  user_id : Nat
  username : String
  duration : Nat
  status : Status
  on_break : Bool
deriving DecidableEq, Repr

/-- The line whoisin builds for a row when no exception is raised. -/
def snapshotLine (now : Nat) (uid : Nat) (sh : ActiveShift) : SnapshotEntry :=
  { user_id := uid, username := sh.username,
    duration := now - sh.check_in_time, status := sh.current_status,
    on_break := sh.on_break }

/-- Building the whoisin display line for one row fetched by
get_all_active_shifts.  For a user on break with a recorded break start,
whoisin computes datetime.datetime.utcnow() - break_start; but
get_all_active_shifts always returns a timezone-aware break_start (it
converts naive stored values to aware PKT ones), and subtracting an aware
datetime from the naive utcnow() raises TypeError in Python, so that line
is never built: none models the raise.  A user on break whose break_start
is NULL skips the subtraction and gets a plain on-break line, and a user
not on break gets a status line. -/
def snapshotEntry (now : Nat) (uid : Nat) (sh : ActiveShift) :
    Option SnapshotEntry :=
  match sh.on_break, sh.break_start_time with
  | true, some _ => none
  | _, _ => some (snapshotLine now uid sh)

/-- The rows of the whoisin display, assembled row by row inside the one
try block of bot.py whoisin: the first row whose construction raises
aborts the whole command, which then answers with its error embed instead
of a listing.  none models the error embed. -/
def whoisinLines (now : Nat) :
    List (Nat × ActiveShift) → Option (List SnapshotEntry)
  | [] => some []
  | (k, v) :: t =>
      match snapshotEntry now k v with
      | none => none
      | some e => (whoisinLines now t).map (fun es => e :: es)

/-- bot.py whoisin over database.py get_all_active_shifts: the listing of
all current active_shifts rows, or none when building any row's line
raises and the error embed is shown instead. -/
def whoisin_snapshot (db : DB) (now : Nat) : Option (List SnapshotEntry) :=
  whoisinLines now db.active_shifts

/-- Writing the current status and its start time of a user's
active_shifts row, leaving every other column alone (used to state that
check_out does not depend on these two columns). -/
def setStatusFields (db : DB) (uid : Nat) (st : Status) (t : Nat) : DB :=
  let shifts := updateWhere uid
    (fun s => { s with current_status := st, status_start_time := t })
    db.active_shifts
  { db with active_shifts := shifts }

/-! Helper lemmas about the association-list table operations. -/

theorem findRow_updateWhere (l : List (Nat × ActiveShift)) (uid : Nat)
    (f : ActiveShift → ActiveShift) :
    findRow uid (updateWhere uid f l) = (findRow uid l).map f := by
  induction l with
  | nil => rfl
  | cons p t ih =>
    obtain ⟨k, v⟩ := p
    rw [updateWhere, findRow, findRow]
    by_cases h : k = uid
    · rw [if_pos h, if_pos h, if_pos h]
      rfl
    · rw [if_neg h, if_neg h, ih]

theorem findRow_filter_ne (l : List (Nat × ActiveShift)) (uid : Nat) :
    findRow uid (l.filter (fun p => decide (p.1 ≠ uid))) = none := by
  induction l with
  | nil => rfl
  | cons p t ih =>
    obtain ⟨k, v⟩ := p
    rw [List.filter_cons]
    by_cases h : k = uid
    · rw [if_neg (by simp [h])]
      exact ih
    · rw [if_pos (by simp [h]), findRow, if_neg h]
      exact ih

theorem filter_ne_updateWhere (l : List (Nat × ActiveShift)) (uid : Nat)
    (f : ActiveShift → ActiveShift) :
    (updateWhere uid f l).filter (fun p => decide (p.1 ≠ uid)) =
      l.filter (fun p => decide (p.1 ≠ uid)) := by
  induction l with
  | nil => rfl
  | cons p t ih =>
    obtain ⟨k, v⟩ := p
    rw [updateWhere, List.filter_cons, List.filter_cons]
    by_cases h : k = uid
    · subst h
      rw [if_pos rfl]
      rw [if_neg (show ¬(decide (((k : Nat), f v).1 ≠ k) = true) by simp)]
      rw [if_neg (show ¬(decide (((k : Nat), v).1 ≠ k) = true) by simp)]
      exact ih
    · rw [if_neg h]
      rw [if_pos (show decide (((k : Nat), v).1 ≠ uid) = true by simp [h])]
      rw [if_pos (show decide (((k : Nat), v).1 ≠ uid) = true by simp [h])]
      rw [ih]

theorem findRow_eq_none_iff (l : List (Nat × ActiveShift)) (uid : Nat) :
    findRow uid l = none ↔ uid ∉ l.map Prod.fst := by
  induction l with
  | nil => simp [findRow]
  | cons p t ih =>
    obtain ⟨k, v⟩ := p
    rw [findRow]
    by_cases h : k = uid
    · simp [if_pos h, h]
    · simp [if_neg h, ih, Ne.symm h]

theorem updateWhere_of_findRow_none (l : List (Nat × ActiveShift)) (uid : Nat)
    (f : ActiveShift → ActiveShift) (h : findRow uid l = none) :
    updateWhere uid f l = l := by
  induction l with
  | nil => rfl
  | cons p t ih =>
    obtain ⟨k, v⟩ := p
    rw [findRow] at h
    by_cases hp : k = uid
    · rw [if_pos hp] at h
      exact absurd h (by simp)
    · rw [if_neg hp] at h
      rw [updateWhere, if_neg hp, ih h]

theorem mem_updateWhere_ne (l : List (Nat × ActiveShift)) (uid : Nat)
    (f : ActiveShift → ActiveShift) (p : Nat × ActiveShift)
    (hne : p.1 ≠ uid) : p ∈ updateWhere uid f l ↔ p ∈ l := by
  induction l with
  | nil => exact Iff.rfl
  | cons q t ih =>
    obtain ⟨k, v⟩ := q
    rw [updateWhere, List.mem_cons, List.mem_cons, ih]
    by_cases h : k = uid
    · constructor
      · rintro (he | hm)
        · exact absurd (by rw [he]; exact h) hne
        · exact Or.inr hm
      · rintro (he | hm)
        · exact absurd (by rw [he]; exact h) hne
        · exact Or.inr hm
    · rw [if_neg h]

theorem findRow_mem (l : List (Nat × ActiveShift)) (uid : Nat)
    (v : ActiveShift) (h : findRow uid l = some v) : (uid, v) ∈ l := by
  induction l with
  | nil => exact absurd h (by simp [findRow])
  | cons p t ih =>
    obtain ⟨k, w⟩ := p
    rw [findRow] at h
    by_cases hp : k = uid
    · rw [if_pos hp] at h
      subst hp
      rw [Option.some_inj] at h
      subst h
      exact List.mem_cons_self _ _
    · rw [if_neg hp] at h
      exact List.mem_cons_of_mem _ (ih h)

/-- Exhaustive description of what end_break can do: either it is a no-op
failure, or the user was on break with a recorded start and exactly one
break_logs row is appended while the flags are cleared. -/
theorem end_break_cases (db : DB) (uid : Nat) (u : String) (now : Nat) :
    end_break db uid u now = (none, db) ∨
    ∃ sh bs, db.activeShift uid = some sh ∧ sh.on_break = true ∧
      sh.break_start_time = some bs ∧
      (end_break db uid u now).1 = some (min ((now - bs) / 60) 40) ∧
      (end_break db uid u now).2.break_logs = db.break_logs ++
        [breakRow uid u bs now (min ((now - bs) / 60) 40)] ∧
      (end_break db uid u now).2.active_shifts =
        updateWhere uid clearBreak db.active_shifts ∧
      (end_break db uid u now).2.shift_history = db.shift_history ∧
      (end_break db uid u now).2.status_logs = db.status_logs := by
  cases hx : db.activeShift uid with
  | none =>
      left
      unfold end_break
      rw [hx]
  | some sh =>
    obtain ⟨un, ci, cs, ss, ob, bst⟩ := sh
    cases ob with
    | false =>
        left
        unfold end_break
        rw [hx]
    | true =>
        cases bst with
        | none =>
            left
            unfold end_break
            rw [hx]
        | some bs =>
            right
            refine ⟨⟨un, ci, cs, ss, true, some bs⟩, bs, rfl, rfl, rfl,
              ?_, ?_, ?_, ?_, ?_⟩ <;>
            · unfold end_break
              rw [hx]

/-! Concrete databases used by witnesses and counterexamples. -/

/-- A shift that checked in at 0 and has been idle since second 600 with
no persisted status_logs row (the open period of C5). -/
def shC5 : ActiveShift :=
  { username := "u", check_in_time := 0, current_status := Status.idle,
    status_start_time := 600, on_break := false, break_start_time := none }

def dbC5 : DB :=
  { active_shifts := [(1, shC5)], shift_history := [], status_logs := [],
    break_logs := [] }

/-- A shift on break since second 0 (45 minutes before the C9 snapshot). -/
def shC9 : ActiveShift :=
  { username := "u", check_in_time := 0, current_status := Status.online,
    status_start_time := 0, on_break := true, break_start_time := some 0 }

def dbC9 : DB :=
  { active_shifts := [(1, shC9)], shift_history := [], status_logs := [],
    break_logs := [] }

/-- A checked-in user on break since second 1200, with one persisted
status interval and one persisted break. -/
def shW : ActiveShift :=
  { username := "w", check_in_time := 0, current_status := Status.online,
    status_start_time := 1200, on_break := true,
    break_start_time := some 1200 }

def dbW : DB :=
  { active_shifts := [(1, shW)],
    shift_history := [],
    status_logs := [{ user_id := 1, status := Status.idle, start_time := 60,
                      end_time := 240, duration_minutes := 3 }],
    break_logs := [{ user_id := 1, username := "w", break_start := 600,
                     break_end := 900, duration_minutes := 5 }] }

/-- A checked-in user who has been idle since check-in at second 0. -/
def shX : ActiveShift :=
  { username := "x", check_in_time := 0, current_status := Status.idle,
    status_start_time := 0, on_break := false, break_start_time := none }

def dbX : DB :=
  { active_shifts := [(1, shX)], shift_history := [], status_logs := [],
    break_logs := [] }

def dbEmpty : DB :=
  { active_shifts := [], shift_history := [], status_logs := [],
    break_logs := [] }

/-! The claims. -/

/-- C1: for a user with an ActiveShift, check_out computes
total = (now - check_in) in whole minutes; sums status_logs rows of the
user with start_time >= check_in into idle and offline minutes by label;
sums break_logs rows with break_start >= check_in plus, when on_break is
set, the in-progress break capped at 40 minutes; sets
active = max 0 (total - idle - offline - break); appends exactly one
shift_history row with the five figures; deletes the ActiveShift row and
no other; and returns the full breakdown with both timestamps. -/
theorem checkOut_spec (db : DB) (uid now : Nat) (sh : ActiveShift)
    (h : db.activeShift uid = some sh)
    (hb : sh.on_break = true → sh.break_start_time ≠ none) :
    ∃ s : CheckoutSummary, ∃ db2 : DB,
      check_out db uid now = (some s, db2) ∧
      s.username = sh.username ∧
      s.check_in = sh.check_in_time ∧
      s.check_out = now ∧
      s.total_minutes = (now - sh.check_in_time) / 60 ∧
      s.idle_minutes =
        sumStatusMinutes db.status_logs uid sh.check_in_time Status.idle ∧
      s.offline_minutes =
        sumStatusMinutes db.status_logs uid sh.check_in_time Status.offline ∧
      s.break_minutes =
        (if sh.on_break = true then
          min ((now - sh.break_start_time.getD 0) / 60) 40 else 0) +
        sumBreakMinutes db.break_logs uid sh.check_in_time ∧
      s.active_minutes =
        max 0 ((s.total_minutes : Int) - s.idle_minutes - s.offline_minutes -
          s.break_minutes) ∧
      db2.shift_history = db.shift_history ++
        [{ user_id := uid, username := s.username,
           check_in_time := s.check_in, check_out_time := now,
           total_minutes := s.total_minutes,
           idle_minutes := s.idle_minutes,
           offline_minutes := s.offline_minutes,
           break_minutes := s.break_minutes,
           active_minutes := s.active_minutes }] ∧
      db2.activeShift uid = none ∧
      (∀ p ∈ db.active_shifts, p.1 ≠ uid → p ∈ db2.active_shifts) ∧
      (∀ p ∈ db2.active_shifts, p.1 ≠ uid ∧ p ∈ db.active_shifts) ∧
      db2.status_logs = db.status_logs ∧
      db2.break_logs = db.break_logs := by
  unfold check_out
  rw [h]
  refine ⟨_, _, rfl, rfl, rfl, rfl, rfl, rfl, rfl, ?_, rfl, rfl, ?_, ?_, ?_,
    rfl, rfl⟩
  · have : ongoingBreakMinutes sh now =
        (if sh.on_break = true then
          min ((now - sh.break_start_time.getD 0) / 60) 40 else 0) := by
      cases hbk : sh.on_break with
      | false => simp [ongoingBreakMinutes, hbk]
      | true =>
          cases hbs : sh.break_start_time with
          | none => exact absurd hbs (hb hbk)
          | some bs => simp [ongoingBreakMinutes, hbk, hbs]
    rw [this]
  · exact findRow_filter_ne db.active_shifts uid
  · intro p hp hne
    exact List.mem_filter.mpr ⟨hp, by simpa using hne⟩
  · intro p hp
    have := List.mem_filter.mp hp
    exact ⟨by simpa using this.2, this.1⟩

/-- C2: check_in fails and mutates nothing when an ActiveShift row already
exists for the user; otherwise it appends exactly one fresh row with
status online, status_start = now and on_break = false; and it preserves
the at-most-one-ActiveShift-per-user invariant (no duplicate user ids in
active_shifts). -/
theorem checkIn_spec (db : DB) (uid : Nat) (u : String) (now : Nat) :
    ((db.activeShift uid).isSome = true → check_in db uid u now = (false, db)) ∧
    (db.activeShift uid = none →
      (check_in db uid u now).1 = true ∧
      (check_in db uid u now).2.active_shifts =
        db.active_shifts ++ [(uid, freshShift u now)] ∧
      (check_in db uid u now).2.shift_history = db.shift_history ∧
      (check_in db uid u now).2.status_logs = db.status_logs ∧
      (check_in db uid u now).2.break_logs = db.break_logs) ∧
    ((db.active_shifts.map Prod.fst).Nodup →
      (((check_in db uid u now).2).active_shifts.map Prod.fst).Nodup) := by
  refine ⟨fun h => ?_, fun h => ?_, fun h => ?_⟩
  · unfold check_in
    rcases hx : db.activeShift uid with _ | sh
    · rw [hx] at h
      simp at h
    · rfl
  · unfold check_in
    rw [h]
    exact ⟨rfl, rfl, rfl, rfl, rfl⟩
  · unfold check_in
    rcases hx : db.activeShift uid with _ | sh
    · have hnotin : uid ∉ db.active_shifts.map Prod.fst :=
        (findRow_eq_none_iff _ _).mp hx
      simp only [List.map_append]
      rw [List.nodup_append]
      refine ⟨h, List.nodup_singleton _, ?_⟩
      intro a ha hb
      simp only [List.map_cons, List.map_nil, List.mem_singleton] at hb
      subst hb
      exact hnotin ha
    · exact h

/-- C3: on a presence transition of a checked-in, not-on-break user whose
tracked category changes, a status_logs row [status_start, now] with the
old label is persisted iff the old status was idle or offline and the
elapsed whole minutes are strictly greater than 1; and any row the
transition adds carries an idle or offline label, never online. -/
theorem updateStatus_interval_spec (db : DB) (uid : Nat) (newStatus : Status)
    (now : Nat) (sh : ActiveShift) (h : db.activeShift uid = some sh)
    (hbr : sh.on_break = false) (hch : sh.current_status ≠ newStatus) :
    (update_status db uid newStatus now false).status_logs =
      db.status_logs ++
        (if (sh.current_status = Status.idle ∨
             sh.current_status = Status.offline) ∧
            1 < (now - sh.status_start_time) / 60 then
          [{ user_id := uid, status := sh.current_status,
             start_time := sh.status_start_time, end_time := now,
             duration_minutes := (now - sh.status_start_time) / 60 }]
        else []) ∧
    ∀ l ∈ (update_status db uid newStatus now false).status_logs,
      l ∉ db.status_logs →
        (l.status = Status.idle ∨ l.status = Status.offline) := by
  unfold update_status
  rw [h]
  dsimp only
  rw [if_neg (by simp [hbr]), if_neg hch]
  by_cases h2 : sh.current_status = Status.idle ∨
      sh.current_status = Status.offline
  · by_cases h1 : 1 < (now - sh.status_start_time) / 60
    · rw [if_pos ⟨rfl, h1, h2⟩, if_pos ⟨h2, h1⟩]
      refine ⟨rfl, ?_⟩
      intro l hl hnot
      rcases List.mem_append.mp hl with hm | hm
      · exact absurd hm hnot
      · rw [List.mem_singleton] at hm
        subst hm
        exact h2
    · rw [if_neg (by simp [h1]), if_neg (by simp [h1]), List.append_nil]
      exact ⟨rfl, fun l hl hnot => absurd hl hnot⟩
  · rw [if_neg (by simp [h2]), if_neg (by simp [h2]), List.append_nil]
    exact ⟨rfl, fun l hl hnot => absurd hl hnot⟩

/-- C4: if every break_logs row so far respects the 40-minute cap, every
row after an end_break call still does (end_break records
min(now - break_start, 40)); the value end_break returns is at most 40;
and the in-progress break component counted at check_out is capped at 40
the same way. -/
theorem break_cap_spec (db : DB) (uid : Nat) (u : String) (now : Nat)
    (hprev : ∀ l ∈ db.break_logs, l.duration_minutes ≤ 40) :
    (∀ l ∈ (end_break db uid u now).2.break_logs, l.duration_minutes ≤ 40) ∧
    (∀ d, (end_break db uid u now).1 = some d → d ≤ 40) ∧
    (∀ sh : ActiveShift, ∀ t : Nat, ongoingBreakMinutes sh t ≤ 40) := by
  refine ⟨?_, ?_, ?_⟩
  · intro l hl
    rcases end_break_cases db uid u now with hc | ⟨sh, bs, _, _, _, _, hlogs, _⟩
    · rw [hc] at hl
      exact hprev l hl
    · rw [hlogs] at hl
      rcases List.mem_append.mp hl with hm | hm
      · exact hprev l hm
      · rw [List.mem_singleton] at hm
        subst hm
        exact min_le_right _ _
  · intro d hd
    rcases end_break_cases db uid u now with hc | ⟨sh, bs, _, _, _, hret, _⟩
    · rw [hc] at hd
      exact absurd hd (by simp)
    · rw [hret] at hd
      rw [Option.some_inj] at hd
      subst hd
      exact min_le_right _ _
  · intro sh t
    unfold ongoingBreakMinutes
    cases hbk : sh.on_break with
    | false => exact Nat.zero_le 40
    | true =>
        cases hbs : sh.break_start_time with
        | none => exact Nat.zero_le 40
        | some bs => exact min_le_right _ _

/-- C10: when the status_logs INSERT raises, update_status still updates
the ActiveShift to the new status with status_start = now and commits
that, while the interval row is silently lost and no other table moves. -/
theorem updateStatus_insert_failure_spec (db : DB) (uid : Nat)
    (newStatus : Status) (now : Nat) (sh : ActiveShift)
    (h : db.activeShift uid = some sh) (hbr : sh.on_break = false)
    (hch : sh.current_status ≠ newStatus) :
    (update_status db uid newStatus now true).status_logs = db.status_logs ∧
    (update_status db uid newStatus now true).activeShift uid =
      some { sh with current_status := newStatus,
                     status_start_time := now } ∧
    (update_status db uid newStatus now true).shift_history =
      db.shift_history ∧
    (update_status db uid newStatus now true).break_logs = db.break_logs := by
  unfold update_status
  rw [h]
  dsimp only
  rw [if_neg (by simp [hbr]), if_neg hch]
  refine ⟨?_, ?_, rfl, rfl⟩
  · rw [if_neg (by simp)]
  · show findRow uid (updateWhere uid _ db.active_shifts) = _
    rw [findRow_updateWhere]
    rw [show findRow uid db.active_shifts = some sh from h]
    rfl

/-- end_break is a no-op failure when the user is checked in but not on
break. -/
theorem end_break_noop (db : DB) (uid : Nat) (v : String) (later : Nat)
    (sh : ActiveShift) (h : db.activeShift uid = some sh)
    (hbk : sh.on_break = false) : end_break db uid v later = (none, db) := by
  unfold end_break
  rw [h]
  dsimp only
  rw [hbk]

/-- end_break is a no-op failure when the user is not checked in. -/
theorem end_break_none (db : DB) (uid : Nat) (v : String) (later : Nat)
    (h : db.activeShift uid = none) : end_break db uid v later = (none, db) := by
  unfold end_break
  rw [h]

/-- C6: for a user on break, the first end_break call (explicit end or
timeout expiry) returns the capped duration, appends exactly one
break_logs row and clears on_break and break_start_time; a second call on
the resulting state is a no-op failure (None, no writes); and calls for a
user who is not checked in or not on break fail the same harmless way. -/
theorem endBreak_race_spec (db : DB) (uid : Nat) (u v : String)
    (now later : Nat) :
    (∀ sh bs, db.activeShift uid = some sh → sh.on_break = true →
        sh.break_start_time = some bs →
      (end_break db uid u now).1 = some (min ((now - bs) / 60) 40) ∧
      (end_break db uid u now).2.break_logs = db.break_logs ++
        [breakRow uid u bs now (min ((now - bs) / 60) 40)] ∧
      (end_break db uid u now).2.activeShift uid = some (clearBreak sh) ∧
      end_break (end_break db uid u now).2 uid v later =
        (none, (end_break db uid u now).2)) ∧
    (db.activeShift uid = none → end_break db uid u now = (none, db)) ∧
    (∀ sh, db.activeShift uid = some sh → sh.on_break = false →
      end_break db uid u now = (none, db)) := by
  refine ⟨?_, ?_, ?_⟩
  · intro sh bs h hbk hbs
    have h3 : (end_break db uid u now).2.activeShift uid =
        some (clearBreak sh) := by
      unfold end_break
      rw [h]
      dsimp only
      rw [hbk, hbs]
      dsimp only
      show findRow uid (updateWhere uid clearBreak db.active_shifts) = _
      rw [findRow_updateWhere]
      rw [show findRow uid db.active_shifts = some sh from h]
      rfl
    refine ⟨?_, ?_, h3, ?_⟩
    · unfold end_break
      rw [h]
      dsimp only
      rw [hbk, hbs]
    · unfold end_break
      rw [h]
      dsimp only
      rw [hbk, hbs]
    · exact end_break_noop _ uid v later (clearBreak sh) h3 rfl
  · intro h
    exact end_break_none db uid u now h
  · intro sh h hbk
    exact end_break_noop db uid u now sh h hbk

/-- C5 counterexample: a user checked in at time 0 who has been in the
still-open idle status since second 600 (no status_logs row persisted)
checks out at second 6000.  The open 90-minute idle period contributes
nothing to idle minutes (idle = 0) and no StatusInterval row is persisted
for it either; the whole shift is reported active.  So check_out does not
fold the open idle period into the idle/offline buckets. -/
theorem checkOut_openIdle_cex :
    (check_out dbC5 1 6000).1 = some
      { username := "u", check_in := 0, check_out := 6000,
        total_minutes := 100, active_minutes := 100, idle_minutes := 0,
        offline_minutes := 0, break_minutes := 0 } ∧
    (check_out dbC5 1 6000).2.status_logs = [] ∧
    shC5.current_status = Status.idle ∧
    (6000 - shC5.status_start_time) / 60 = 90 := by
  decide

/-- C5 amended: check_out neither persists a StatusInterval row for the
still-open idle/offline period nor adds it to the idle/offline buckets:
its entire result is unchanged if the row's current_status and
status_start_time columns are overwritten with arbitrary values, and
status_logs is left untouched, so the open period is implicitly counted
inside active minutes. -/
theorem checkOut_ignores_open_status (db : DB) (uid : Nat) (st : Status)
    (t now : Nat) :
    check_out (setStatusFields db uid st t) uid now = check_out db uid now ∧
    (check_out db uid now).2.status_logs = db.status_logs := by
  constructor
  · have ha : (setStatusFields db uid st t).activeShift uid =
        (db.activeShift uid).map
          (fun s => { s with current_status := st,
                             status_start_time := t }) := by
      show findRow uid (updateWhere uid _ db.active_shifts) = _
      exact findRow_updateWhere _ _ _
    cases hx : db.activeShift uid with
    | none =>
        rw [hx] at ha
        rw [Option.map_none'] at ha
        unfold check_out
        rw [hx, ha]
        dsimp only
        have : setStatusFields db uid st t = db := by
          unfold setStatusFields
          dsimp only
          rw [updateWhere_of_findRow_none db.active_shifts uid _ hx]
        rw [this]
    | some sh =>
        rw [hx] at ha
        rw [Option.map_some'] at ha
        unfold check_out
        rw [hx, ha]
        dsimp only [setStatusFields]
        rw [filter_ne_updateWhere]
        rfl
  · cases hx : db.activeShift uid with
    | none =>
        unfold check_out
        rw [hx]
    | some sh =>
        unfold check_out
        rw [hx]

/-- C7: arming the idle warning stores a task that fires a fixed
IDLE_WARNING_TIME = 300 seconds later, replacing any prior pending timer
of that user and touching nobody else; the fired task emits the warning
iff, on re-reading the persisted state, the user still has an active shift
that is idle and not on break; after firing the slot is empty; and a
second fire after any fire emits nothing, so one warning per arming. -/
theorem idle_warning_spec (timers : IdleTimers) (uid v : Nat) (db db2 : DB)
    (tarm tfire tfire2 : Nat) :
    IDLE_WARNING_TIME = 300 ∧
    start_idle_warning timers uid tarm uid = some (tarm + IDLE_WARNING_TIME) ∧
    (v ≠ uid → start_idle_warning timers uid tarm v = timers v) ∧
    ((fire_idle_warning timers uid db tfire).2 = true ↔
      (timers uid).isSome = true ∧
      ∃ sh, db.activeShift uid = some sh ∧
        sh.current_status = Status.idle ∧ sh.on_break = false) ∧
    (fire_idle_warning timers uid db tfire).1 uid = none ∧
    (fire_idle_warning (fire_idle_warning timers uid db tfire).1 uid db2
      tfire2).2 = false := by
  refine ⟨rfl, ?_, ?_, ?_, ?_, ?_⟩
  · unfold start_idle_warning
    rw [if_pos rfl]
  · intro hv
    unfold start_idle_warning
    rw [if_neg hv]
  · cases ht : timers uid with
    | none =>
        unfold fire_idle_warning
        rw [ht]
        simp
    | some d =>
        unfold fire_idle_warning
        rw [ht]
        cases hx : db.activeShift uid with
        | none =>
            unfold idle_warning_guard get_active_shift
            rw [hx]
            simp
        | some sh =>
            unfold idle_warning_guard get_active_shift
            rw [hx]
            simp [ht, hx]
  · cases ht : timers uid with
    | none =>
        unfold fire_idle_warning
        rw [ht]
        exact ht
    | some d =>
        unfold fire_idle_warning cancel_idle_warning
        rw [ht]
        dsimp only
        rw [if_pos rfl]
  · have hslot : (fire_idle_warning timers uid db tfire).1 uid = none := by
      cases ht : timers uid with
      | none =>
          unfold fire_idle_warning
          rw [ht]
          exact ht
      | some d =>
          unfold fire_idle_warning cancel_idle_warning
          rw [ht]
          dsimp only
          rw [if_pos rfl]
    generalize hT : (fire_idle_warning timers uid db tfire).1 = T1 at hslot
    unfold fire_idle_warning
    rw [hslot]

/-! Lemmas about the stable descending sort of the leaderboard. -/

theorem mem_insertDesc (x a : EmployeeAgg) (l : List EmployeeAgg) :
    a ∈ insertDesc x l ↔ a = x ∨ a ∈ l := by
  induction l with
  | nil => simp [insertDesc]
  | cons y ys ih =>
    rw [insertDesc]
    by_cases h : productivity_score y ≤ productivity_score x
    · rw [if_pos h]
      simp [List.mem_cons]
    · rw [if_neg h]
      rw [List.mem_cons, ih, List.mem_cons]
      tauto

theorem perm_insertDesc (x : EmployeeAgg) (l : List EmployeeAgg) :
    (insertDesc x l).Perm (x :: l) := by
  induction l with
  | nil => exact List.Perm.refl _
  | cons y ys ih =>
    rw [insertDesc]
    by_cases h : productivity_score y ≤ productivity_score x
    · rw [if_pos h]
    · rw [if_neg h]
      exact (ih.cons y).trans (List.Perm.swap x y ys)

theorem pairwise_insertDesc (x : EmployeeAgg) (l : List EmployeeAgg)
    (h : l.Pairwise (fun a b => productivity_score b ≤ productivity_score a)) :
    (insertDesc x l).Pairwise
      (fun a b => productivity_score b ≤ productivity_score a) := by
  induction l with
  | nil => simp [insertDesc]
  | cons y ys ih =>
    rw [insertDesc]
    rcases List.pairwise_cons.mp h with ⟨hy, hys⟩
    by_cases hc : productivity_score y ≤ productivity_score x
    · rw [if_pos hc]
      refine List.Pairwise.cons ?_ h
      intro b hb
      rcases List.mem_cons.mp hb with rfl | hb
      · exact hc
      · exact le_trans (hy b hb) hc
    · rw [if_neg hc]
      refine List.Pairwise.cons ?_ (ih hys)
      intro b hb
      rcases (mem_insertDesc x b ys).mp hb with rfl | hb
      · exact le_of_lt (lt_of_not_le hc)
      · exact hy b hb

theorem filter_insertDesc (k : ℚ) (x : EmployeeAgg) (l : List EmployeeAgg) :
    (insertDesc x l).filter (fun e => decide (productivity_score e = k)) =
      if productivity_score x = k then
        x :: l.filter (fun e => decide (productivity_score e = k))
      else l.filter (fun e => decide (productivity_score e = k)) := by
  induction l with
  | nil =>
      by_cases hk : productivity_score x = k <;>
        simp [insertDesc, List.filter_cons, hk]
  | cons y ys ih =>
    rw [insertDesc]
    by_cases hc : productivity_score y ≤ productivity_score x
    · rw [if_pos hc]
      by_cases hk : productivity_score x = k <;>
        simp [List.filter_cons, hk]
    · rw [if_neg hc]
      have hxy : productivity_score x < productivity_score y :=
        lt_of_not_le hc
      by_cases hk : productivity_score x = k
      · have hyk : productivity_score y ≠ k := by
          intro hy
          rw [hk, hy] at hxy
          exact lt_irrefl k hxy
        simp [List.filter_cons, hyk, ih, hk]
      · simp [List.filter_cons, ih, hk]

theorem filter_pySortDesc (k : ℚ) (l : List EmployeeAgg) :
    (pySortDesc l).filter (fun e => decide (productivity_score e = k)) =
      l.filter (fun e => decide (productivity_score e = k)) := by
  induction l with
  | nil => rfl
  | cons a t ih =>
    show (insertDesc a (pySortDesc t)).filter _ = _
    rw [filter_insertDesc]
    by_cases hk : productivity_score a = k
    · rw [if_pos hk, ih, List.filter_cons, if_pos (by simp [hk])]
    · rw [if_neg hk, ih, List.filter_cons, if_neg (by simp [hk])]

theorem pairwise_pySortDesc (l : List EmployeeAgg) :
    (pySortDesc l).Pairwise
      (fun a b => productivity_score b ≤ productivity_score a) := by
  induction l with
  | nil => simp [pySortDesc]
  | cons a t ih => exact pairwise_insertDesc a (pySortDesc t) ih

theorem perm_pySortDesc (l : List EmployeeAgg) : (pySortDesc l).Perm l := by
  induction l with
  | nil => exact List.Perm.refl _
  | cons a t ih => exact (perm_insertDesc a (pySortDesc t)).trans (ih.cons a)

/-- The two report rows of the C8 counterexample, in the order the SQL
hands them over (active minutes descending).  Both have productivity
score 80. -/
def zedRow : EmployeeAgg :=
  { user_id := 2, username := "zed", shifts := 1, total_min := 100,
    active_min := 80, idle_min := 10, offline_min := 0, break_min := 10 }

def aliceRow : EmployeeAgg :=
  { user_id := 1, username := "alice", shifts := 1, total_min := 50,
    active_min := 40, idle_min := 5, offline_min := 0, break_min := 5 }

/-- C8 counterexample: on report rows ordered by active minutes descending
(as get_weekly_report_data returns them), the leaderboard keeps zed before
alice although their productivity scores are equal and "alice" < "zed":
ties are not broken by ascending username. -/
theorem leaderboard_tiebreak_cex :
    sqlOrderActiveDesc [zedRow, aliceRow] ∧
    leaderboard_sort [zedRow, aliceRow] = [zedRow, aliceRow] ∧
    productivity_score zedRow = productivity_score aliceRow ∧
    aliceRow.username < zedRow.username := by
  have hz : productivity_score zedRow = 80 := by
    norm_num [productivity_score, zedRow]
  have ha : productivity_score aliceRow = 80 := by
    norm_num [productivity_score, aliceRow]
  refine ⟨?_, ?_, ?_, ?_⟩
  · unfold sqlOrderActiveDesc
    simp [List.pairwise_cons, zedRow, aliceRow]
  · show insertDesc zedRow (insertDesc aliceRow []) = _
    rw [show insertDesc aliceRow [] = [aliceRow] from rfl]
    rw [insertDesc, if_pos (by rw [hz, ha])]
  · rw [hz, ha]
  · show ("alice" : String) < "zed"
    rw [String.lt_iff_toList_lt]
    decide

/-- C8 amended: the leaderboard display is the report rows sorted
descending by productivity score with a stable sort, so two employees with
equal scores keep the order the query produced them in, which is
descending by active minutes, not ascending by username. -/
theorem leaderboard_sort_spec (l : List EmployeeAgg) (k : ℚ) :
    (leaderboard_sort l).Pairwise
      (fun a b => productivity_score b ≤ productivity_score a) ∧
    (leaderboard_sort l).filter (fun e => decide (productivity_score e = k)) =
      l.filter (fun e => decide (productivity_score e = k)) ∧
    (leaderboard_sort l).Perm l :=
  ⟨pairwise_pySortDesc l, filter_pySortDesc k l, perm_pySortDesc l⟩

/-- When every listed user is either not on break or on break with a NULL
break_start, every line is built and the listing succeeds with one line
per row. -/
theorem whoisinLines_total (now : Nat) (l : List (Nat × ActiveShift))
    (h : ∀ p ∈ l, p.2.on_break = true → p.2.break_start_time = none) :
    ∃ es, whoisinLines now l = some es ∧ es.length = l.length ∧
      ∀ uid sh, (uid, sh) ∈ l → snapshotLine now uid sh ∈ es := by
  induction l with
  | nil => exact ⟨[], rfl, rfl, by simp⟩
  | cons p t ih =>
    obtain ⟨k, v⟩ := p
    have hv : snapshotEntry now k v = some (snapshotLine now k v) := by
      obtain ⟨un, ci, cs, ss, ob, bst⟩ := v
      cases ob with
      | false => rfl
      | true =>
          have hb := h (k, ⟨un, ci, cs, ss, true, bst⟩)
            (List.mem_cons_self _ _) rfl
          dsimp only at hb
          subst hb
          rfl
    obtain ⟨es, he, hlen, hmem⟩ :=
      ih (fun p hp => h p (List.mem_cons_of_mem _ hp))
    refine ⟨snapshotLine now k v :: es, ?_, ?_, ?_⟩
    · rw [whoisinLines, hv, he]
      rfl
    · simp [hlen]
    · intro uid sh hm
      rcases List.mem_cons.mp hm with he2 | hm2
      · rw [Prod.mk.injEq] at he2
        obtain ⟨h1, h2⟩ := he2
        subst h1
        subst h2
        exact List.mem_cons_self _ _
      · exact List.mem_cons_of_mem _ (hmem uid sh hm2)

/-- As soon as one listed user is on break with a recorded break start,
building that user's line raises and the whole listing fails. -/
theorem whoisinLines_fails (now : Nat) (l : List (Nat × ActiveShift))
    (uid : Nat) (sh : ActiveShift) (bs : Nat) (hm : (uid, sh) ∈ l)
    (hbk : sh.on_break = true) (hbs : sh.break_start_time = some bs) :
    whoisinLines now l = none := by
  induction l with
  | nil => cases hm
  | cons p t ih =>
    obtain ⟨k, v⟩ := p
    rcases List.mem_cons.mp hm with he | hm2
    · rw [Prod.mk.injEq] at he
      obtain ⟨h1, h2⟩ := he
      subst h1
      subst h2
      have hnone : snapshotEntry now uid sh = none := by
        unfold snapshotEntry
        rw [hbk, hbs]
      rw [whoisinLines, hnone]
    · rw [whoisinLines]
      cases hse : snapshotEntry now k v with
      | none => rfl
      | some e =>
          rw [ih hm2]
          rfl

/-- C9 counterexample: dbC9 holds one ActiveShift whose user has been on
break for 45 minutes, yet the snapshot produces no listing at all, let
alone a floored remaining break time: building the on-break line
subtracts the naive utcnow() from the timezone-aware break_start, which
raises, and whoisin answers with its error embed. -/
theorem whoisin_onbreak_error_cex :
    whoisin_snapshot dbC9 2700 = none ∧
    dbC9.active_shifts.length = 1 := by
  decide

/-- C9 amended: the snapshot lists every current ActiveShift row with
elapsed duration now - check_in only when no listed user is on break with
a recorded break start; whenever some user is on break with a recorded
break start, the remaining-time computation subtracts the naive utcnow()
from the timezone-aware break_start, raises, and the command shows its
error embed instead of any listing, so a remaining break time - floored
or not - is never displayed. -/
theorem whoisin_snapshot_spec (db : DB) (now : Nat) :
    ((∀ p ∈ db.active_shifts, p.2.on_break = true →
        p.2.break_start_time = none) →
      ∃ es, whoisin_snapshot db now = some es ∧
        es.length = db.active_shifts.length ∧
        ∀ uid sh, (uid, sh) ∈ db.active_shifts →
          snapshotLine now uid sh ∈ es) ∧
    (∀ uid sh bs, (uid, sh) ∈ db.active_shifts → sh.on_break = true →
      sh.break_start_time = some bs → whoisin_snapshot db now = none) := by
  constructor
  · intro h
    exact whoisinLines_total now db.active_shifts h
  · intro uid sh bs hm hbk hbs
    exact whoisinLines_fails now db.active_shifts uid sh bs hm hbk hbs

/-! Witnesses: each theorem with hypotheses applied at a concrete input. -/

/-- Witness for C1: checking the on-break user of dbW out at second 6000
produces a summary and a new database. -/
theorem checkOut_spec_w :
    ∃ s : CheckoutSummary, ∃ db2 : DB,
      check_out dbW 1 6000 = (some s, db2) := by
  obtain ⟨s, db2, h1, _⟩ :=
    checkOut_spec dbW 1 6000 shW (by decide) (fun _ => by decide)
  exact ⟨s, db2, h1⟩

/-- Witness for C2: a second check-in of user 1 fails without mutation,
and a first check-in of user 2 on the empty database succeeds and keeps
the user ids duplicate-free. -/
theorem checkIn_spec_w :
    check_in dbW 1 "w" 7000 = (false, dbW) ∧
    (check_in dbEmpty 2 "v" 5).1 = true ∧
    (((check_in dbEmpty 2 "v" 5).2).active_shifts.map Prod.fst).Nodup := by
  refine ⟨(checkIn_spec dbW 1 "w" 7000).1 (by decide), ?_, ?_⟩
  · exact ((checkIn_spec dbEmpty 2 "v" 5).2.1 (by decide)).1
  · exact (checkIn_spec dbEmpty 2 "v" 5).2.2 (by simp [dbEmpty])

/-- Witness for C3: a transition away from a 10-minute idle period
persists exactly the closing idle row. -/
theorem updateStatus_interval_spec_w :
    (update_status dbX 1 Status.online 600 false).status_logs =
      [{ user_id := 1, status := Status.idle, start_time := 0,
         end_time := 600, duration_minutes := 10 }] := by
  have h := (updateStatus_interval_spec dbX 1 Status.online 600 shX
    (by decide) (by decide) (by decide)).1
  rw [h]
  decide

/-- Witness for C4: ending the dbW break after 130 elapsed minutes records
40 capped minutes, and the returned duration obeys the cap. -/
theorem break_cap_spec_w :
    (end_break dbW 1 "w" 9000).1 = some 40 ∧ (40 : Nat) ≤ 40 := by
  refine ⟨by decide, ?_⟩
  exact (break_cap_spec dbW 1 "w" 9000 (by decide)).2.1 40 (by decide)

/-- Witness for C6: the first end_break on dbW returns the capped 40
minutes and a second call on the resulting state is a no-op failure. -/
theorem endBreak_race_spec_w :
    (end_break dbW 1 "w" 9000).1 = some 40 ∧
    end_break (end_break dbW 1 "w" 9000).2 1 "w" 9999 =
      (none, (end_break dbW 1 "w" 9000).2) := by
  obtain ⟨h1, _, _, h4⟩ :=
    (endBreak_race_spec dbW 1 "w" "w" 9000 9999).1 shW 1200 (by decide)
      (by decide) (by decide)
  exact ⟨h1.trans (by decide), h4⟩

/-- A timer map with one pending idle warning for user 1. -/
def timersW : IdleTimers := fun v => if v = 1 then some 100 else none

/-- Witness for C7: arming user 1 leaves user 2 untouched. -/
theorem idle_warning_spec_w :
    start_idle_warning timersW 1 0 2 = timersW 2 :=
  (idle_warning_spec timersW 1 2 dbEmpty dbEmpty 0 0 0).2.2.1 (by decide)

/-- Witness for C9: on dbC5, whose only user is not on break, the listing
succeeds; on dbC9, whose only user is on break with a recorded start, the
command fails over to the error embed. -/
theorem whoisin_snapshot_spec_w :
    (∃ es, whoisin_snapshot dbC5 6000 = some es) ∧
    whoisin_snapshot dbC9 2700 = none := by
  constructor
  · obtain ⟨es, h1, _⟩ := (whoisin_snapshot_spec dbC5 6000).1 (by decide)
    exact ⟨es, h1⟩
  · exact (whoisin_snapshot_spec dbC9 2700).2 1 shC9 0 (by decide) (by decide)
      (by decide)

/-- Witness for C10: with the INSERT raising, no status row is written but
the shift still moves to online with status_start = 600. -/
theorem updateStatus_insert_failure_spec_w :
    (update_status dbX 1 Status.online 600 true).status_logs = [] ∧
    (update_status dbX 1 Status.online 600 true).activeShift 1 =
      some { shX with current_status := Status.online,
                      status_start_time := 600 } := by
  have h := updateStatus_insert_failure_spec dbX 1 Status.online 600 shX
    (by decide) (by decide) (by decide)
  exact ⟨h.1, h.2.1⟩

end IdleBot
